import Mathlib

/-!
Verification of the `ovft-core` requirement-tracing library.

This file gives a shallow embedding of the parts of the Rust sources that the
checked properties are about:

* `src/ovft-core/src/core/model.rs` — `SpecificationItemId` (with `parse` and
  `Display`), `SpecificationItem`, `LinkStatus`, `CoverageStatus`, `Link`,
  `LinkedSpecificationItem`;
* `src/ovft-core/src/core/linker.rs` — `Linker::link_items` and its helpers;
* `src/ovft-core/src/core/tracer.rs` — defect-description generation;
* `src/ovft-core/src/importers/markdown_importer.rs` — title resolution;
* `src/ovft-core/src/importers/tag_importer.rs` /
  `markdown_importer.rs` — the missing-directory early return.

Rust `u32` values are modelled as `Nat` with explicit `< 2 ^ 32` bounds where
overflow matters; `String`s are Lean `String`s manipulated through their
underlying `List Char` (Rust `char` iteration and Lean `String.data` both walk
Unicode scalar values); fallible functions return `Except Error`.
-/

namespace OVFT

/-- Model of `crate::Error` (`src/ovft-core/src/error.rs`), restricted to the
variants the verified functions produce. -/
inductive Error where
  | invalidId (msg : String)
  | parseError (msg location : String)
deriving DecidableEq

/-- Model of `SpecificationItemId` (`model.rs`): artifact type, name and
`u32` revision.  The revision is a `Nat`; bounds `< 2 ^ 32` appear as explicit
hypotheses where they matter. -/
structure SpecificationItemId where
  artifact_type : String
  name : String
  revision : Nat
deriving DecidableEq

/-- Model of `ItemStatus` (`model.rs`). -/
inductive ItemStatus where
  | draft
  | proposed
  | approved
  | rejected
deriving DecidableEq

/-- Model of `Location` (`model.rs`): file path and line number. -/
structure Location where
  path : String
  line : Nat
deriving DecidableEq

/-- Model of `SpecificationItem` (`model.rs`) with all of its fields.
Defaults mirror `SpecificationItem::new`. -/
structure SpecificationItem where
  id : SpecificationItemId
  title : Option String := none
  description : Option String := none
  rationale : Option String := none
  comment : Option String := none
  status : ItemStatus := .approved
  tags : List String := []
  needs : List String := []
  covers : List SpecificationItemId := []
  depends : List SpecificationItemId := []
  location : Option Location := none
deriving DecidableEq

/-- Model of `LinkStatus` (`model.rs`), all eleven variants. -/
inductive LinkStatus where
  | covers
  | predated
  | outdated
  | ambiguous
  | unwanted
  | orphaned
  | coveredShallow
  | coveredUnwanted
  | coveredPredated
  | coveredOutdated
  | duplicate
deriving DecidableEq

/-- Model of `CoverageStatus` (`model.rs`). -/
inductive CoverageStatus where
  | covered
  | uncovered
  | partly
deriving DecidableEq

/-- Model of `Link` (`model.rs`). -/
structure Link where
  source_id : Option SpecificationItemId
  target_id : SpecificationItemId
  status : LinkStatus
deriving DecidableEq

/-- Model of `LinkedSpecificationItem` (`model.rs`). -/
structure LinkedSpecificationItem where
  item : SpecificationItem
  outgoing_links : List Link
  incoming_links : List Link
  coverage_status : CoverageStatus
  is_defect : Bool
deriving DecidableEq

/-- `LinkedSpecificationItem::new`: fresh linked item, `Uncovered`, no
defect, no links. -/
def LinkedSpecificationItem.new (item : SpecificationItem) : LinkedSpecificationItem :=
  { item := item
    outgoing_links := []
    incoming_links := []
    coverage_status := .uncovered
    is_defect := false }

/-- `LinkedSpecificationItem::add_outgoing_link`: pushes a link whose source is
the item itself. -/
def LinkedSpecificationItem.add_outgoing_link (li : LinkedSpecificationItem)
    (target_id : SpecificationItemId) (status : LinkStatus) : LinkedSpecificationItem :=
  { li with outgoing_links :=
      li.outgoing_links ++ [{ source_id := some li.item.id, target_id := target_id, status := status }] }

/-- `LinkedSpecificationItem::add_incoming_link`: pushes a link whose target is
the item itself. -/
def LinkedSpecificationItem.add_incoming_link (li : LinkedSpecificationItem)
    (source_id : SpecificationItemId) (status : LinkStatus) : LinkedSpecificationItem :=
  { li with incoming_links :=
      li.incoming_links ++ [{ source_id := some source_id, target_id := li.item.id, status := status }] }

/-- Digit-accumulator loop of the decimal formatter: repeatedly divide by ten,
prepending `Nat.digitChar` of the remainder.  `fuel` bounds the iteration
count; any `fuel > n` is enough. -/
def natReprGo : Nat → Nat → List Char → List Char
  | 0, _, acc => acc
  | fuel + 1, n, acc =>
    if n = 0 then acc else natReprGo fuel (n / 10) (Nat.digitChar (n % 10) :: acc)

/-- Decimal digit string of `n`, as Rust's `u32` `Display` prints it. -/
def natReprChars (n : Nat) : List Char :=
  if n = 0 then ['0'] else natReprGo (n + 1) n []

/-- Model of `format!("{}", n)` for a `u32` value `n`. -/
def u32Display (n : Nat) : String :=
  String.mk (natReprChars n)

/-- Numeric value of a decimal character (`'0'` ↦ 0, …, `'9'` ↦ 9). -/
def charVal (c : Char) : Nat := c.toNat - 48

/-- Model of `str::parse::<u32>` on the character list of the input: strip one
optional leading `'+'`, then require a non-empty all-digit string whose value
is below `2 ^ 32`. -/
def parseU32Chars (cs0 : List Char) : Option Nat :=
  let cs := match cs0 with
    | '+' :: rest => rest
    | cs => cs
  if cs = [] then none
  else if cs.all Char.isDigit then
    let v := cs.foldl (fun a c => a * 10 + charVal c) 0
    if v < 2 ^ 32 then some v else none
  else none

/-- Model of `impl fmt::Display for SpecificationItemId`:
`"{artifact_type}~{name}~{revision}"`. -/
def SpecificationItemId.toString (id : SpecificationItemId) : String :=
  id.artifact_type ++ "~" ++ id.name ++ "~" ++ u32Display id.revision

/-- Split a character list at every `'~'`, keeping empty segments — the
behaviour of Rust's `str::split('~')` (which yields one segment even for the
empty string). -/
def splitTilde : List Char → List (List Char)
  | [] => [[]]
  | c :: rest =>
    if c = '~' then [] :: splitTilde rest
    else
      match splitTilde rest with
      | [] => [[c]]
      | s :: ss => (c :: s) :: ss

/-- Model of `SpecificationItemId::parse` (`model.rs`): split on `'~'`, demand
exactly three segments, parse the third as `u32`. -/
def SpecificationItemId.parse (s : String) : Except Error SpecificationItemId :=
  match splitTilde s.data with
  | [a, n, r] =>
    match parseU32Chars r with
    | some rev => .ok ⟨String.mk a, String.mk n, rev⟩
    | none =>
      .error (.invalidId
        ("Invalid revision number '" ++ String.mk r ++ "' in ID '" ++ s ++ "'"))
  | _ =>
    .error (.invalidId
      ("Invalid ID format '" ++ s ++ "'. Expected format: 'type~name~revision'"))

deriving instance DecidableEq for Except

/-- One iteration of the duplicate-detection loop of `Linker::link_items`:
an id already present in the map goes to `duplicate_ids`, otherwise the item
is inserted. -/
def buildStep
    (acc : List (SpecificationItemId × SpecificationItem) × List SpecificationItemId)
    (item : SpecificationItem) :
    List (SpecificationItemId × SpecificationItem) × List SpecificationItemId :=
  if (acc.1.find? fun p => decide (p.1 = item.id)).isSome then (acc.1, acc.2 ++ [item.id])
  else (acc.1 ++ [(item.id, item)], acc.2)

/-- First loop of `Linker::link_items`: build the `items_by_id` lookup (first
occurrence of each id wins) and record every later occurrence of an
already-present id in `duplicate_ids`. -/
def buildItemsById (items : List SpecificationItem) :
    List (SpecificationItemId × SpecificationItem) × List SpecificationItemId :=
  items.foldl buildStep ([], [])

/-- `Linker::determine_link_status`: exact hit → `Unwanted`/`Covers` by the
target's `needs`; otherwise case split on the identifiers sharing
`(artifact_type, name)`. -/
def determine_link_status (covered_id : SpecificationItemId)
    (items_by_id : List (SpecificationItemId × SpecificationItem)) : LinkStatus :=
  match items_by_id.find? fun p => decide (p.1 = covered_id) with
  | some p =>
    if p.2.needs = [] then .unwanted else .covers
  | none =>
    let matching := (items_by_id.map Prod.fst).filter fun id =>
      decide (id.artifact_type = covered_id.artifact_type ∧ id.name = covered_id.name)
    match matching with
    | [] => .orphaned
    | [existing_item] =>
      if covered_id.revision < existing_item.revision then .outdated else .predated
    | _ => .ambiguous

/-- `Linker::determine_incoming_link_status`: always `CoveredShallow`. -/
def determine_incoming_link_status
    (_item_id _covering_id : SpecificationItemId) : LinkStatus :=
  .coveredShallow

/-- First loop of `Linker::process_coverage_links`: one outgoing link per
`covers` entry of the item. -/
def addOutgoingLinks (items_by_id : List (SpecificationItemId × SpecificationItem))
    (li : LinkedSpecificationItem) : LinkedSpecificationItem :=
  li.item.covers.foldl
    (fun li covered_id =>
      li.add_outgoing_link covered_id (determine_link_status covered_id items_by_id))
    li

/-- Second loop of `Linker::process_coverage_links`: one incoming link from
every item of `items_clone` whose `covers` mention this item. -/
def addIncomingLinks (items_clone : List SpecificationItem)
    (li : LinkedSpecificationItem) : LinkedSpecificationItem :=
  items_clone.foldl
    (fun li other_item =>
      if li.item.id ∈ other_item.covers then
        li.add_incoming_link other_item.id
          (determine_incoming_link_status li.item.id other_item.id)
      else li)
    li

/-- `Linker::process_coverage_links`: add an outgoing link per `covers` entry,
then an incoming link from every item whose `covers` mention this item. -/
def process_coverage_links (linked_items : List LinkedSpecificationItem)
    (items_by_id : List (SpecificationItemId × SpecificationItem)) :
    List LinkedSpecificationItem :=
  let withOutgoing := linked_items.map (addOutgoingLinks items_by_id)
  let items_clone := withOutgoing.map (·.item)
  withOutgoing.map (addIncomingLinks items_clone)

/-- `Linker::is_artifact_type_covered_static`: some item of the needed type
covers `item_id` and carries a `Covers`-status outgoing link back to it. -/
def is_artifact_type_covered_static (item_id : SpecificationItemId)
    (artifact_type : String)
    (items_data : List (SpecificationItem × List Link)) : Bool :=
  items_data.any fun p =>
    decide (p.1.id.artifact_type = artifact_type) &&
    decide (item_id ∈ p.1.covers) &&
    p.2.any fun link => decide (link.target_id = item_id) && decide (link.status = .covers)

/-- The `matches!` test of `Linker::analyze_coverage` for broken outgoing
links. -/
def brokenLink (link : Link) : Bool :=
  match link.status with
  | .orphaned | .ambiguous | .outdated | .predated | .duplicate => true
  | _ => false

/-- `Linker::analyze_coverage`: compute each item's coverage status from its
`needs`, then overwrite `is_defect` with `not_covered || has_broken_links`. -/
def analyze_coverage (linked_items : List LinkedSpecificationItem) :
    List LinkedSpecificationItem :=
  let items_data := linked_items.map fun li => (li.item, li.outgoing_links)
  linked_items.map fun linked_item =>
    let linked_item :=
      if linked_item.item.needs = [] then
        { linked_item with coverage_status := .covered }
      else
        let all_covered := linked_item.item.needs.all fun needed_type =>
          is_artifact_type_covered_static linked_item.item.id needed_type items_data
        let any_covered := linked_item.item.needs.any fun needed_type =>
          is_artifact_type_covered_static linked_item.item.id needed_type items_data
        { linked_item with coverage_status :=
            if all_covered then .covered
            else if any_covered then .partly
            else .uncovered }
    let not_covered := !(decide (linked_item.coverage_status = CoverageStatus.covered))
    let has_broken_links := linked_item.outgoing_links.any brokenLink
    { linked_item with is_defect := not_covered || has_broken_links }

/-- `Linker::link_items`: duplicate detection, duplicate self-links, coverage
links, coverage analysis.  The only fallible callee always returns `Ok`, so
the result is always `Ok`. -/
def link_items (items : List SpecificationItem) :
    Except Error (List LinkedSpecificationItem) :=
  let items_by_id := (buildItemsById items).1
  let duplicate_ids := (buildItemsById items).2
  let linked_items := items.map fun item =>
    let linked_item := LinkedSpecificationItem.new item
    if item.id ∈ duplicate_ids then
      ({ linked_item with is_defect := true }).add_outgoing_link item.id .duplicate
    else linked_item
  let linked_items := process_coverage_links linked_items items_by_id
  .ok (analyze_coverage linked_items)

/-- Duplicate self-link block placed (before any `covers` link) on every item
whose id is in `duplicate_ids`. -/
def dupPre (items : List SpecificationItem) (item : SpecificationItem) : List Link :=
  if item.id ∈ (buildItemsById items).2 then
    [{ source_id := some item.id, target_id := item.id, status := .duplicate }]
  else []

/-- Outgoing links of `item` in the output of `link_items items`. -/
def outgoingOf (items : List SpecificationItem) (item : SpecificationItem) : List Link :=
  dupPre items item ++ item.covers.map fun c =>
    { source_id := some item.id, target_id := c,
      status := determine_link_status c (buildItemsById items).1 }

/-- Incoming links of `item` in the output of `link_items items`. -/
def incomingOf (items : List SpecificationItem) (item : SpecificationItem) : List Link :=
  (items.filter fun other => decide (item.id ∈ other.covers)).map fun other =>
    { source_id := some other.id, target_id := item.id, status := .coveredShallow }

/-- The `items_data` snapshot that `analyze_coverage` works on. -/
def itemsData (items : List SpecificationItem) : List (SpecificationItem × List Link) :=
  items.map fun item => (item, outgoingOf items item)

/-- Coverage status of `item` in the output of `link_items items`. -/
def coverageOf (items : List SpecificationItem) (item : SpecificationItem) : CoverageStatus :=
  if item.needs = [] then .covered
  else if item.needs.all
      (fun t => is_artifact_type_covered_static item.id t (itemsData items)) then .covered
  else if item.needs.any
      (fun t => is_artifact_type_covered_static item.id t (itemsData items)) then .partly
  else .uncovered

/-- Defect flag of `item` in the output of `link_items items`. -/
def defectOf (items : List SpecificationItem) (item : SpecificationItem) : Bool :=
  !(decide (coverageOf items item = CoverageStatus.covered)) || (outgoingOf items item).any brokenLink

/-- The linked item that `link_items items` produces for `item`. -/
def linkedOf (items : List SpecificationItem) (item : SpecificationItem) :
    LinkedSpecificationItem :=
  { item := item
    outgoing_links := outgoingOf items item
    incoming_links := incomingOf items item
    coverage_status := coverageOf items item
    is_defect := defectOf items item }

/-- The identifiers known to the linker: the distinct ids of the input. -/
def knownIds (items : List SpecificationItem) : List SpecificationItemId :=
  (items.map (·.id)).dedup

/-- The outgoing-link status rule as the claim states it: exact hit (the item
with identifier `c`) → `Covers`/`Unwanted` by its `needs`; otherwise zero /
exactly-one / several known identifiers sharing `(artifact_type, name)` give
`Orphaned` / `Outdated`-or-`Predated` (by revision comparison) / `Ambiguous`. -/
def linkStatusSpec (items : List SpecificationItem) (c : SpecificationItemId) : LinkStatus :=
  match items.find? fun it => decide (it.id = c) with
  | some target => if target.needs = [] then .unwanted else .covers
  | none =>
    match (knownIds items).filter fun id =>
        decide (id.artifact_type = c.artifact_type ∧ id.name = c.name) with
    | [] => .orphaned
    | [k] => if c.revision < k.revision then .outdated else .predated
    | _ => .ambiguous

/-- The claim's satisfaction criterion for a needed artifact type `t` of the
item with identifier `id`: some output item of artifact type `t` lists `id`
in its `covers` and has an outgoing link to `id` with status `Covers`. -/
def CoversSat (out : List LinkedSpecificationItem) (id : SpecificationItemId)
    (t : String) : Prop :=
  ∃ lj ∈ out, lj.item.id.artifact_type = t ∧ id ∈ lj.item.covers ∧
    ∃ l ∈ lj.outgoing_links, l.target_id = id ∧ l.status = LinkStatus.covers

/-- One match arm of the link loop in
`Tracer::generate_detailed_defect_description`: the message produced for an
outgoing link, `none` for the statuses the loop ignores. -/
def linkIssueMsg (item_id : SpecificationItemId) (l : Link) : Option String :=
  match l.status with
  | .orphaned => some ("covers non-existing item " ++ l.target_id.toString)
  | .duplicate => some ("has duplicate ID " ++ item_id.toString)
  | .outdated => some ("covers outdated revision of " ++ l.target_id.toString)
  | .predated => some ("covers newer revision of " ++ l.target_id.toString)
  | .ambiguous => some ("has ambiguous reference to " ++ l.target_id.toString)
  | _ => none

/-- `Tracer::find_missing_coverage_types`: the needed artifact types with no
incoming link whose source has that artifact type, in declaration order. -/
def find_missing_coverage_types (li : LinkedSpecificationItem) : List String :=
  li.item.needs.filter fun needed_type =>
    !(li.incoming_links.any fun link =>
      match link.source_id with
      | some source_id => decide (source_id.artifact_type = needed_type)
      | none => false)

/-- `Tracer::generate_detailed_defect_description`: one message per broken
outgoing link in link order, then at most one "needs coverage by …" clause,
wrapped in the single/multiple/unspecified frame. -/
def generate_detailed_defect_description (li : LinkedSpecificationItem) : String :=
  let issues := li.outgoing_links.filterMap (linkIssueMsg li.item.id)
  let issues :=
    if li.coverage_status = CoverageStatus.covered then issues
    else
      let missing_coverage := find_missing_coverage_types li
      if missing_coverage = [] then issues
      else issues ++ ["needs coverage by " ++ String.intercalate ", " missing_coverage]
  match issues with
  | [] => "Item " ++ li.item.id.toString ++ " has unspecified defects"
  | [single] => "Item " ++ li.item.id.toString ++ " " ++ single
  | _ =>
    "Item " ++ li.item.id.toString ++ " has multiple issues: " ++
      String.intercalate "; " issues

/-- The claimed order of issue messages (claim C6): all orphaned-reference
messages first, then all duplicate-id messages, then the
outdated/predated/ambiguous messages, then the clause. -/
def descriptionSpecC6 (li : LinkedSpecificationItem) : String :=
  let orphanedMsgs :=
    (li.outgoing_links.filter fun l => decide (l.status = LinkStatus.orphaned)).map
      fun l => "covers non-existing item " ++ l.target_id.toString
  let duplicateMsgs :=
    (li.outgoing_links.filter fun l => decide (l.status = LinkStatus.duplicate)).map
      fun _ => "has duplicate ID " ++ li.item.id.toString
  let otherMsgs :=
    (li.outgoing_links.filter fun l =>
        decide (l.status = LinkStatus.outdated ∨ l.status = LinkStatus.predated ∨
          l.status = LinkStatus.ambiguous)).map
      fun l =>
        match l.status with
        | .outdated => "covers outdated revision of " ++ l.target_id.toString
        | .predated => "covers newer revision of " ++ l.target_id.toString
        | _ => "has ambiguous reference to " ++ l.target_id.toString
  let issues := orphanedMsgs ++ duplicateMsgs ++ otherMsgs
  let issues :=
    if li.coverage_status = CoverageStatus.covered then issues
    else
      let missing_coverage := find_missing_coverage_types li
      if missing_coverage = [] then issues
      else issues ++ ["needs coverage by " ++ String.intercalate ", " missing_coverage]
  match issues with
  | [] => "Item " ++ li.item.id.toString ++ " has unspecified defects"
  | [single] => "Item " ++ li.item.id.toString ++ " " ++ single
  | _ =>
    "Item " ++ li.item.id.toString ++ " has multiple issues: " ++
      String.intercalate "; " issues

/-- The claimed "unsatisfied under the coverage rule" list (claim C7): needed
types not satisfied by `is_artifact_type_covered_static`, in declaration
order. -/
def unsatisfiedTypes (items : List SpecificationItem) (item : SpecificationItem) :
    List String :=
  item.needs.filter fun t => !(is_artifact_type_covered_static item.id t (itemsData items))

/-- The claim's single/multiple/unspecified framing of the issue list. -/
def formatItemIssues (id : SpecificationItemId) (issues : List String) : String :=
  match issues with
  | [] => "Item " ++ id.toString ++ " has unspecified defects"
  | [single] => "Item " ++ id.toString ++ " " ++ single
  | _ =>
    "Item " ++ id.toString ++ " has multiple issues: " ++ String.intercalate "; " issues

/-- The message an offending link status contributes, per the claim's
wording. -/
def statusIssueMsg (id target : SpecificationItemId) : LinkStatus → Option String
  | .orphaned => some ("covers non-existing item " ++ target.toString)
  | .duplicate => some ("has duplicate ID " ++ id.toString)
  | .outdated => some ("covers outdated revision of " ++ target.toString)
  | .predated => some ("covers newer revision of " ++ target.toString)
  | .ambiguous => some ("has ambiguous reference to " ++ target.toString)
  | _ => none

/-- Rust's `str::trim_start` on a character list (leading whitespace). -/
def trimStartChars (cs : List Char) : List Char := cs.dropWhile Char.isWhitespace

/-- Rust's `str::trim` on a character list (both ends). -/
def trimChars (cs : List Char) : List Char :=
  ((cs.dropWhile Char.isWhitespace).reverse.dropWhile Char.isWhitespace).reverse

/-- `MarkdownImporter::is_heading`: `line.trim_start().starts_with('#')`. -/
def is_heading (line : String) : Bool :=
  match trimStartChars line.data with
  | '#' :: _ => true
  | _ => false

/-- `MarkdownImporter::extract_heading_text`:
`line.trim_start().trim_start_matches('#').trim()`. -/
def extract_heading_text (line : String) : String :=
  String.mk (trimChars ((trimStartChars line.data).dropWhile (· = '#')))

/-- Whether `pat` starts the text. -/
def startsWithChars : List Char → List Char → Bool
  | [], _ => true
  | _ :: _, [] => false
  | p :: ps, c :: cs => p = c && startsWithChars ps cs

/-- Index of the first occurrence of `pat` in the text, as Rust's `str::find`
locates it (first match in left-to-right order). -/
def findSubstrIdx (pat : List Char) : List Char → Option Nat
  | [] => if pat = [] then some 0 else none
  | c :: rest =>
    if startsWithChars pat (c :: rest) then some 0
    else (findSubstrIdx pat rest).map (· + 1)

/-- Model of the title-resolution fragment of
`MarkdownImporter::parse_specification_item` (markdown_importer.rs, the code
between building the id and scanning the body): a heading on the previous
line sets the title, but a heading on the declaration line itself overwrites
it — with the text *after* the identifier occurrence (trimmed), falling back
to the bare identifier when nothing remains, or the whole heading text when
the identifier does not occur in it. -/
def resolveTitle (lines : List String) (line_number : Nat)
    (artifact_type nm : String) (revision : Nat) : Option String :=
  let title0 : Option String :=
    if 0 < line_number ∧ is_heading (lines.getD (line_number - 1) "") then
      some (extract_heading_text (lines.getD (line_number - 1) ""))
    else none
  let current_line := lines.getD line_number ""
  if is_heading current_line then
    let heading_text := extract_heading_text current_line
    let idStr := artifact_type ++ "~" ++ nm ++ "~" ++ u32Display revision
    match findSubstrIdx idStr.data heading_text.data with
    | some pos =>
      let title_part := trimChars (heading_text.data.drop (pos + idStr.data.length))
      if title_part = [] then some idStr else some (String.mk title_part)
    | none => some heading_text
  else title0

/-- Title resolution as claim C8 states it: a heading on the previous line
wins; otherwise a declaration inside a heading line titles the item with the
heading text with the identifier substring *removed* (text on both sides
kept) and trimmed, falling back to the bare identifier when nothing
remains. -/
def titleSpecC8 (lines : List String) (line_number : Nat)
    (artifact_type nm : String) (revision : Nat) : Option String :=
  if 0 < line_number ∧ is_heading (lines.getD (line_number - 1) "") then
    some (extract_heading_text (lines.getD (line_number - 1) ""))
  else if is_heading (lines.getD line_number "") then
    let heading_text := extract_heading_text (lines.getD line_number "")
    let idStr := artifact_type ++ "~" ++ nm ++ "~" ++ u32Display revision
    match findSubstrIdx idStr.data heading_text.data with
    | some pos =>
      let title_part := trimChars (heading_text.data.take pos ++
        heading_text.data.drop (pos + idStr.data.length))
      if title_part = [] then some idStr else some (String.mk title_part)
    | none => some heading_text
  else none

/-- Folding the per-file import results of a directory walk, as both
importers' loops do: each file's items are appended in walk order, and a
file error aborts the whole import (the `?` operator). -/
def walkFold : List (Except Error (List SpecificationItem)) →
    Except Error (List SpecificationItem)
  | [] => .ok []
  | r :: rs =>
    match r with
    | .error e => .error e
    | .ok file_items =>
      match walkFold rs with
      | .error e => .error e
      | .ok items => .ok (file_items ++ items)

/-- Modelled over an abstract filesystem: `TagImporter::import_from_directory`
(tag_importer.rs).  `dir_exists` says whether the scan root exists;
`file_results` are the per-file `import_from_file` results for the files the
walk would visit, in walk order; the second component records whether the
missing-directory diagnostic (`log::warn`) was emitted.  A missing root
short-circuits to `Ok` with the empty item list plus the diagnostic. -/
def TagImporter.import_from_directory (dir_exists : Bool)
    (file_results : List (Except Error (List SpecificationItem))) :
    Except Error (List SpecificationItem) × Bool :=
  if !dir_exists then (.ok [], true)
  else (walkFold file_results, false)

/-- Modelled over an abstract filesystem:
`MarkdownImporter::import_from_directory` (markdown_importer.rs) — the same
guard and walk structure as the tag importer. -/
def MarkdownImporter.import_from_directory (dir_exists : Bool)
    (file_results : List (Except Error (List SpecificationItem))) :
    Except Error (List SpecificationItem) × Bool :=
  if !dir_exists then (.ok [], true)
  else (walkFold file_results, false)

/-! ### Theorems -/

theorem digitChar_isDigit {d : Nat} (h : d < 10) : (Nat.digitChar d).isDigit = true := by
  interval_cases d <;> decide

theorem charVal_digitChar {d : Nat} (h : d < 10) : charVal (Nat.digitChar d) = d := by
  interval_cases d <;> decide

theorem natReprGo_append (n : Nat) : ∀ fuel acc, n < fuel →
    natReprGo fuel n acc = natReprGo fuel n [] ++ acc := by
  induction n using Nat.strong_induction_on with
  | _ n ih =>
    intro fuel acc hf
    match fuel with
    | fuel + 1 =>
      by_cases hn : n = 0
      · simp [natReprGo, hn]
      · have hdiv : n / 10 < n := Nat.div_lt_self (Nat.pos_of_ne_zero hn) (by norm_num)
        have hdf : n / 10 < fuel := lt_of_lt_of_le hdiv (Nat.lt_succ_iff.mp hf)
        simp only [natReprGo, hn, if_false, ite_false]
        rw [ih _ hdiv fuel _ hdf, ih _ hdiv fuel [Nat.digitChar (n % 10)] hdf]
        simp

theorem natReprGo_digits (n : Nat) : ∀ fuel acc, n < fuel →
    (∀ c ∈ acc, c.isDigit = true) → ∀ c ∈ natReprGo fuel n acc, c.isDigit = true := by
  induction n using Nat.strong_induction_on with
  | _ n ih =>
    intro fuel acc hf hacc
    match fuel with
    | fuel + 1 =>
      by_cases hn : n = 0
      · simpa [natReprGo, hn] using hacc
      · have hdiv : n / 10 < n := Nat.div_lt_self (Nat.pos_of_ne_zero hn) (by norm_num)
        have hdf : n / 10 < fuel := lt_of_lt_of_le hdiv (Nat.lt_succ_iff.mp hf)
        simp only [natReprGo, hn, if_false, ite_false]
        refine ih _ hdiv fuel _ hdf ?_
        intro c hc
        rcases List.mem_cons.mp hc with h | h
        · exact h ▸ digitChar_isDigit (Nat.mod_lt _ (by norm_num))
        · exact hacc c h

theorem decVal_natReprGo (n : Nat) : ∀ fuel, n < fuel →
    List.foldl (fun a c => a * 10 + charVal c) 0 (natReprGo fuel n []) = n := by
  induction n using Nat.strong_induction_on with
  | _ n ih =>
    intro fuel hf
    match fuel with
    | fuel + 1 =>
      by_cases hn : n = 0
      · simp [natReprGo, hn]
      · have hdiv : n / 10 < n := Nat.div_lt_self (Nat.pos_of_ne_zero hn) (by norm_num)
        have hdf : n / 10 < fuel := lt_of_lt_of_le hdiv (Nat.lt_succ_iff.mp hf)
        simp only [natReprGo, hn, if_false, ite_false]
        rw [natReprGo_append _ fuel _ hdf, List.foldl_append]
        simp only [List.foldl_cons, List.foldl_nil]
        rw [decVal_natReprGo_aux ih hdiv hdf, charVal_digitChar (Nat.mod_lt _ (by norm_num))]
        omega
  where
    decVal_natReprGo_aux {n : Nat}
      (ih : ∀ m, m < n → ∀ fuel, m < fuel →
        List.foldl (fun a c => a * 10 + charVal c) 0 (natReprGo fuel m []) = m)
      {fuel : Nat} (hdiv : n / 10 < n) (hdf : n / 10 < fuel) :
      List.foldl (fun a c => a * 10 + charVal c) 0 (natReprGo fuel (n / 10) []) = n / 10 :=
    ih _ hdiv fuel hdf

theorem natReprChars_digits (n : Nat) : ∀ c ∈ natReprChars n, c.isDigit = true := by
  by_cases hn : n = 0
  · simp [natReprChars, hn]
  · simp only [natReprChars, hn, if_false, ite_false]
    exact natReprGo_digits n (n + 1) [] (Nat.lt_succ_self n) (by simp)

theorem natReprChars_ne_nil (n : Nat) : natReprChars n ≠ [] := by
  by_cases hn : n = 0
  · simp [natReprChars, hn]
  · simp only [natReprChars, hn, if_false, ite_false]
    match n, hn with
    | n, hn =>
      rw [show natReprGo (n + 1) n [] =
            natReprGo n (n / 10) [Nat.digitChar (n % 10)] by simp [natReprGo, hn]]
      have hdiv : n / 10 < n := Nat.div_lt_self (Nat.pos_of_ne_zero hn) (by norm_num)
      rw [natReprGo_append _ n _ hdiv]
      simp

theorem decVal_natReprChars (n : Nat) :
    List.foldl (fun a c => a * 10 + charVal c) 0 (natReprChars n) = n := by
  by_cases hn : n = 0
  · simp [natReprChars, hn, charVal]
  · simp only [natReprChars, hn, if_false, ite_false]
    exact decVal_natReprGo n (n + 1) (Nat.lt_succ_self n)

theorem parseU32Chars_of_digits {m : List Char} (hne : m ≠ [])
    (hd : ∀ c ∈ m, c.isDigit = true)
    (hv : List.foldl (fun a c => a * 10 + charVal c) 0 m < 2 ^ 32) :
    parseU32Chars m = some (List.foldl (fun a c => a * 10 + charVal c) 0 m) := by
  obtain ⟨c, cs, rfl⟩ := List.exists_cons_of_ne_nil hne
  have hc : c.isDigit = true := hd c (List.mem_cons_self _ _)
  have hcp : c ≠ '+' := by
    intro h
    rw [h] at hc
    exact absurd hc (by decide)
  unfold parseU32Chars
  have hmatch : (match c :: cs with
      | '+' :: rest => rest
      | cs => cs) = c :: cs := by
    split
    · next heq => exact absurd (List.head_eq_of_cons_eq heq.symm).symm hcp
    · rfl
  rw [hmatch]
  simp only [List.all_eq_true.mpr hd, if_true, List.cons_ne_self, ite_true, hv,
    reduceCtorEq, if_false, ite_false, if_pos hv]

theorem parseU32Chars_natReprChars {n : Nat} (h : n < 2 ^ 32) :
    parseU32Chars (natReprChars n) = some n := by
  have := parseU32Chars_of_digits (natReprChars_ne_nil n) (natReprChars_digits n)
    (by rw [decVal_natReprChars]; exact h)
  rwa [decVal_natReprChars] at this

theorem no_tilde_natReprChars (n : Nat) : '~' ∉ natReprChars n := by
  intro h
  exact absurd (natReprChars_digits n _ h) (by decide)

theorem splitTilde_ne_nil (cs : List Char) : splitTilde cs ≠ [] := by
  induction cs with
  | nil => simp [splitTilde]
  | cons c rest ih =>
    simp only [splitTilde]
    split
    · simp
    · cases h : splitTilde rest with
      | nil => simp
      | cons s ss => simp

theorem splitTilde_no_tilde {cs : List Char} (h : '~' ∉ cs) : splitTilde cs = [cs] := by
  induction cs with
  | nil => rfl
  | cons c rest ih =>
    have hc : c ≠ '~' := fun e => h (e ▸ List.mem_cons_self _ _)
    have hr : '~' ∉ rest := fun m => h (List.mem_cons_of_mem _ m)
    simp [splitTilde, hc, ih hr]

theorem splitTilde_append {xs : List Char} (h : '~' ∉ xs) (cs : List Char)
    (s : List Char) (ss : List (List Char)) (hcs : splitTilde cs = s :: ss) :
    splitTilde (xs ++ cs) = (xs ++ s) :: ss := by
  induction xs with
  | nil => simpa using hcs
  | cons x xs ih =>
    have hx : x ≠ '~' := fun e => h (e ▸ List.mem_cons_self _ _)
    have hxs : '~' ∉ xs := fun m => h (List.mem_cons_of_mem _ m)
    simp only [List.cons_append, splitTilde, hx, if_false, ite_false]
    rw [show xs.append cs = xs ++ cs from rfl, ih hxs]

theorem splitTilde_three {a n r : List Char}
    (ha : '~' ∉ a) (hn : '~' ∉ n) (hr : '~' ∉ r) :
    splitTilde (a ++ '~' :: (n ++ '~' :: r)) = [a, n, r] := by
  have h1 : splitTilde ('~' :: r) = [] :: [r] := by
    simp [splitTilde, splitTilde_no_tilde hr]
  have h2 : splitTilde (n ++ '~' :: r) = n :: [r] := by
    simpa using splitTilde_append hn _ _ _ h1
  have h3 : splitTilde ('~' :: (n ++ '~' :: r)) = [] :: (n :: [r]) := by
    simp [splitTilde, h2]
  simpa using splitTilde_append ha _ _ _ h3

/-- C5 (counterexample): the round trip `parse(id.to_string()) == id` fails for
the constructible identifier `⟨"a~b", "c", 1⟩` — its `to_string` is
`"a~b~c~1"`, which splits into four segments, so `parse` rejects it. -/
theorem C5_roundtrip_counterexample :
    SpecificationItemId.parse (SpecificationItemId.toString ⟨"a~b", "c", 1⟩) ≠
      Except.ok ⟨"a~b", "c", 1⟩ := by decide

/-- C5 (amended): for every constructible identifier whose `artifact_type` and
`name` contain no `'~'` character (and whose revision fits in a `u32`),
`SpecificationItemId::parse(id.to_string())` succeeds and returns an
identifier equal to `id`. -/
theorem C5_roundtrip (id : SpecificationItemId)
    (hrev : id.revision < 2 ^ 32)
    (ha : '~' ∉ id.artifact_type.data) (hn : '~' ∉ id.name.data) :
    SpecificationItemId.parse id.toString = Except.ok id := by
  have hdata : (SpecificationItemId.toString id).data
      = id.artifact_type.data ++ '~' :: (id.name.data ++ '~' :: natReprChars id.revision) := by
    simp [SpecificationItemId.toString, u32Display, String.data_append]
  unfold SpecificationItemId.parse
  rw [hdata, splitTilde_three ha hn (no_tilde_natReprChars _)]
  simp only [parseU32Chars_natReprChars hrev]

/-- Witness for `C5_roundtrip` at the identifier `⟨"req", "x", 7⟩`. -/
theorem C5_roundtrip_witness :
    (7 : Nat) < 2 ^ 32 ∧ '~' ∉ ("req" : String).data ∧ '~' ∉ ("x" : String).data ∧
      SpecificationItemId.parse (SpecificationItemId.toString ⟨"req", "x", 7⟩) =
        Except.ok ⟨"req", "x", 7⟩ :=
  ⟨by decide, by decide, by decide,
    C5_roundtrip ⟨"req", "x", 7⟩ (by decide) (by decide) (by decide)⟩

/-- C10: `SpecificationItemId::parse(s)` returns `Ok` iff `s` splits on `'~'`
into exactly three segments whose third parses as a `u32`; it accepts
`"~~0"` (empty artifact type and name) and the non-canonical `"req~x~007"`,
whose resulting identifier prints differently from the accepted input. -/
theorem C10_parse_acceptance :
    (∀ s : String, (∃ id, SpecificationItemId.parse s = Except.ok id) ↔
        ((splitTilde s.data).length = 3 ∧
          (parseU32Chars ((splitTilde s.data).getD 2 [])).isSome)) ∧
      SpecificationItemId.parse "~~0" = Except.ok ⟨"", "", 0⟩ ∧
      SpecificationItemId.parse "req~x~007" = Except.ok ⟨"req", "x", 7⟩ ∧
      SpecificationItemId.toString ⟨"req", "x", 7⟩ ≠ "req~x~007" := by
  refine ⟨?_, by decide, by decide, by decide⟩
  intro s
  unfold SpecificationItemId.parse
  rcases hL : splitTilde s.data with _ | ⟨a, _ | ⟨b, _ | ⟨c, _ | ⟨d, tl⟩⟩⟩⟩
  · simp
  · simp
  · simp
  · rcases hp : parseU32Chars c with _ | rev <;> simp [hp]
  · simp only [List.length_cons]
    constructor
    · rintro ⟨id, h⟩
      exact absurd h (by simp)
    · intro h
      omega

theorem foldl_add_outgoing (f : SpecificationItemId → LinkStatus) :
    ∀ (covers : List SpecificationItemId) (li : LinkedSpecificationItem),
      covers.foldl (fun li c => li.add_outgoing_link c (f c)) li =
        { li with outgoing_links :=
            li.outgoing_links ++ (covers.map fun c =>
              { source_id := some li.item.id, target_id := c, status := f c }) } := by
  intro covers
  induction covers with
  | nil => intro li; simp
  | cons c cs ih =>
    intro li
    rw [List.foldl_cons, ih]
    simp [LinkedSpecificationItem.add_outgoing_link]

theorem addOutgoingLinks_eq (M : List (SpecificationItemId × SpecificationItem))
    (li : LinkedSpecificationItem) :
    addOutgoingLinks M li =
      { li with outgoing_links :=
          li.outgoing_links ++ (li.item.covers.map fun c =>
            { source_id := some li.item.id, target_id := c,
              status := determine_link_status c M }) } :=
  foldl_add_outgoing _ _ _

theorem addIncomingLinks_eq (others : List SpecificationItem) :
    ∀ (li : LinkedSpecificationItem),
      addIncomingLinks others li =
        { li with incoming_links :=
            li.incoming_links ++
              ((others.filter fun other => decide (li.item.id ∈ other.covers)).map
                fun other =>
                  { source_id := some other.id, target_id := li.item.id,
                    status := LinkStatus.coveredShallow }) } := by
  unfold addIncomingLinks
  induction others with
  | nil => intro li; simp
  | cons o os ih =>
    intro li
    rw [List.foldl_cons]
    by_cases h : li.item.id ∈ o.covers
    · rw [if_pos h, ih]
      simp [LinkedSpecificationItem.add_incoming_link, determine_incoming_link_status,
        List.filter_cons, h]
    · rw [if_neg h, ih]
      simp [List.filter_cons, h]

theorem process_coverage_links_eq (items : List SpecificationItem)
    (M : List (SpecificationItemId × SpecificationItem))
    (g : SpecificationItem → LinkedSpecificationItem)
    (hitem : ∀ item, (g item).item = item) :
    process_coverage_links (items.map g) M =
      items.map fun item =>
        { item := item
          outgoing_links := (g item).outgoing_links ++ (item.covers.map fun c =>
            { source_id := some item.id, target_id := c,
              status := determine_link_status c M })
          incoming_links := (g item).incoming_links ++
            ((items.filter fun other => decide (item.id ∈ other.covers)).map
              fun other =>
                { source_id := some other.id, target_id := item.id,
                  status := LinkStatus.coveredShallow })
          coverage_status := (g item).coverage_status
          is_defect := (g item).is_defect } := by
  have hstep1 : (items.map g).map (addOutgoingLinks M) =
      items.map fun item =>
        { item := item
          outgoing_links := (g item).outgoing_links ++ (item.covers.map fun c =>
            { source_id := some item.id, target_id := c,
              status := determine_link_status c M })
          incoming_links := (g item).incoming_links
          coverage_status := (g item).coverage_status
          is_defect := (g item).is_defect } := by
    rw [List.map_map]
    refine List.map_congr_left fun item _ => ?_
    show addOutgoingLinks M (g item) = _
    rw [addOutgoingLinks_eq, hitem item]
  simp only [process_coverage_links]
  rw [hstep1, List.map_map]
  have hclone : items.map ((fun li => li.item) ∘ fun item =>
      ({ item := item
         outgoing_links := (g item).outgoing_links ++ (item.covers.map fun c =>
           { source_id := some item.id, target_id := c,
             status := determine_link_status c M })
         incoming_links := (g item).incoming_links
         coverage_status := (g item).coverage_status
         is_defect := (g item).is_defect } : LinkedSpecificationItem)) = items := by
    rw [show ((fun li : LinkedSpecificationItem => li.item) ∘ fun item =>
        ({ item := item
           outgoing_links := (g item).outgoing_links ++ (item.covers.map fun c =>
             { source_id := some item.id, target_id := c,
               status := determine_link_status c M })
           incoming_links := (g item).incoming_links
           coverage_status := (g item).coverage_status
           is_defect := (g item).is_defect } : LinkedSpecificationItem)) =
        fun item => item from rfl]
    exact List.map_id items
  rw [List.map_map, hclone]
  refine List.map_congr_left fun item _ => ?_
  simp only [Function.comp_apply]
  rw [addIncomingLinks_eq]

theorem analyze_coverage_eq (items : List SpecificationItem)
    (g : SpecificationItem → LinkedSpecificationItem)
    (hitem : ∀ item, (g item).item = item)
    (hout : ∀ item, (g item).outgoing_links = outgoingOf items item) :
    analyze_coverage (items.map g) = items.map fun item =>
      { item := item
        outgoing_links := outgoingOf items item
        incoming_links := (g item).incoming_links
        coverage_status := coverageOf items item
        is_defect := defectOf items item } := by
  have hdata : (items.map g).map (fun li => (li.item, li.outgoing_links)) = itemsData items := by
    rw [List.map_map]
    refine List.map_congr_left fun item _ => ?_
    show (((g item).item, (g item).outgoing_links) : SpecificationItem × List Link) = _
    rw [hitem item, hout item]
  simp only [analyze_coverage]
  rw [hdata, List.map_map]
  refine List.map_congr_left fun item _ => ?_
  simp only [Function.comp_apply]
  dsimp only
  simp only [hitem, hout]
  by_cases hn : item.needs = []
  · simp [hn, coverageOf, defectOf]
  · by_cases hall : (item.needs.all fun needed_type =>
        is_artifact_type_covered_static item.id needed_type (itemsData items)) = true
    · simp [hn, hall, coverageOf, defectOf]
    · by_cases hany : (item.needs.any fun needed_type =>
          is_artifact_type_covered_static item.id needed_type (itemsData items)) = true
      · simp [hn, hall, hany, coverageOf, defectOf]
      · simp [hn, hall, hany, coverageOf, defectOf]

/-- Closed form of `link_items`: the output pairs each input occurrence with
`linkedOf`. -/
theorem link_items_eq (items : List SpecificationItem) :
    link_items items = .ok (items.map (linkedOf items)) := by
  have hstage0 : ∀ item : SpecificationItem,
      ((fun item =>
        let linked_item := LinkedSpecificationItem.new item
        if item.id ∈ (buildItemsById items).2 then
          ({ linked_item with is_defect := true }).add_outgoing_link item.id .duplicate
        else linked_item) item : LinkedSpecificationItem) =
      { item := item
        outgoing_links := dupPre items item
        incoming_links := []
        coverage_status := .uncovered
        is_defect := decide (item.id ∈ (buildItemsById items).2) } := by
    intro item
    by_cases h : item.id ∈ (buildItemsById items).2 <;>
      simp [h, dupPre, LinkedSpecificationItem.new, LinkedSpecificationItem.add_outgoing_link]
  simp only [link_items]
  rw [List.map_congr_left fun item (_ : item ∈ items) => hstage0 item]
  rw [process_coverage_links_eq items (buildItemsById items).1 _ (fun item => rfl)]
  rw [analyze_coverage_eq items _ (fun item => rfl) (fun item => by
    show dupPre items item ++ _ = _
    rfl)]
  refine congrArg Except.ok (List.map_congr_left fun item _ => ?_)
  show ({ item := item
          outgoing_links := outgoingOf items item
          incoming_links := [] ++ _
          coverage_status := coverageOf items item
          is_defect := defectOf items item } : LinkedSpecificationItem) = linkedOf items item
  rw [linkedOf]
  simp [incomingOf]

theorem buildStep_find (c : SpecificationItemId) :
    ∀ (items : List SpecificationItem) (m : List (SpecificationItemId × SpecificationItem))
      (d : List SpecificationItemId),
      ((items.foldl buildStep (m, d)).1.find? fun p => decide (p.1 = c)) =
        ((m.find? fun p => decide (p.1 = c)).or
          ((items.find? fun it => decide (it.id = c)).map fun it => (it.id, it))) := by
  intro items
  induction items with
  | nil =>
    intro m d
    cases h : m.find? fun p => decide (p.1 = c) <;> simp [h, Option.or]
  | cons it rest ih =>
    intro m d
    rw [List.foldl_cons, show buildStep (m, d) it =
      (if (m.find? fun p => decide (p.1 = it.id)).isSome then (m, d ++ [it.id])
        else (m ++ [(it.id, it)], d)) from rfl]
    by_cases hpres : ((m.find? fun p => decide (p.1 = it.id)).isSome)
    · rw [if_pos hpres, ih]
      by_cases hc : it.id = c
      · subst hc
        obtain ⟨e, he⟩ := Option.isSome_iff_exists.mp hpres
        rw [he]
        rfl
      · rw [List.find?_cons_of_neg _ (by simpa using hc)]
    · rw [if_neg hpres, ih, List.find?_append]
      have hnone : (m.find? fun p => decide (p.1 = it.id)) = none :=
        Option.not_isSome_iff_eq_none.mp hpres
      by_cases hc : it.id = c
      · subst hc
        rw [hnone]
        rw [show ([((it.id, it))].find? fun p => decide (p.1 = it.id)) = some (it.id, it) by simp]
        rw [List.find?_cons_of_pos _ (by simp)]
        rfl
      · rw [show ([((it.id, it))].find? fun p => decide (p.1 = c)) = none by simp [hc]]
        rw [List.find?_cons_of_neg _ (by simpa using hc)]
        cases hmc : m.find? fun p => decide (p.1 = c) <;> simp [hmc, Option.or]

theorem buildStep_keys (x : SpecificationItemId) :
    ∀ (items : List SpecificationItem) (m : List (SpecificationItemId × SpecificationItem))
      (d : List SpecificationItemId),
      (x ∈ ((items.foldl buildStep (m, d)).1.map Prod.fst)) ↔
        x ∈ m.map Prod.fst ∨ x ∈ items.map (·.id) := by
  intro items
  induction items with
  | nil => intro m d; simp
  | cons it rest ih =>
    intro m d
    rw [List.foldl_cons, show buildStep (m, d) it =
      (if (m.find? fun p => decide (p.1 = it.id)).isSome then (m, d ++ [it.id])
        else (m ++ [(it.id, it)], d)) from rfl]
    by_cases hpres : ((m.find? fun p => decide (p.1 = it.id)).isSome)
    · rw [if_pos hpres, ih]
      have hmem : it.id ∈ m.map Prod.fst := by
        obtain ⟨p, hp, hpe⟩ := List.find?_isSome.mp hpres
        exact List.mem_map.mpr ⟨p, hp, (by simpa using hpe)⟩
      simp only [List.map_cons, List.mem_cons]
      constructor
      · rintro (h | h)
        · exact Or.inl h
        · exact Or.inr (Or.inr h)
      · rintro (h | h | h)
        · exact Or.inl h
        · exact Or.inl (h ▸ hmem)
        · exact Or.inr h
    · rw [if_neg hpres, ih]
      simp only [List.map_append, List.mem_append, List.map_cons, List.mem_cons,
        List.map_nil, List.mem_singleton]
      tauto

theorem buildStep_nodup :
    ∀ (items : List SpecificationItem) (m : List (SpecificationItemId × SpecificationItem))
      (d : List SpecificationItemId), (m.map Prod.fst).Nodup →
      ((items.foldl buildStep (m, d)).1.map Prod.fst).Nodup := by
  intro items
  induction items with
  | nil => intro m d h; simpa using h
  | cons it rest ih =>
    intro m d h
    rw [List.foldl_cons, show buildStep (m, d) it =
      (if (m.find? fun p => decide (p.1 = it.id)).isSome then (m, d ++ [it.id])
        else (m ++ [(it.id, it)], d)) from rfl]
    by_cases hpres : ((m.find? fun p => decide (p.1 = it.id)).isSome)
    · rw [if_pos hpres]
      exact ih _ _ h
    · rw [if_neg hpres]
      refine ih _ _ ?_
      have hnone : (m.find? fun p => decide (p.1 = it.id)) = none :=
        Option.not_isSome_iff_eq_none.mp hpres
      have hnotmem : it.id ∉ m.map Prod.fst := by
        intro hmem
        obtain ⟨p, hp, hpe⟩ := List.mem_map.mp hmem
        exact absurd (by simpa using hpe.symm ▸ rfl : decide (p.1 = it.id) = true)
          (by simpa using List.find?_eq_none.mp hnone p hp)
      simp [List.map_append, List.nodup_append, h, hnotmem]

theorem buildStep_dups_mono (x : SpecificationItemId) :
    ∀ (items : List SpecificationItem) (m : List (SpecificationItemId × SpecificationItem))
      (d : List SpecificationItemId), x ∈ d → x ∈ (items.foldl buildStep (m, d)).2 := by
  intro items
  induction items with
  | nil => intro m d h; simpa using h
  | cons it rest ih =>
    intro m d h
    rw [List.foldl_cons, show buildStep (m, d) it =
      (if (m.find? fun p => decide (p.1 = it.id)).isSome then (m, d ++ [it.id])
        else (m ++ [(it.id, it)], d)) from rfl]
    by_cases hpres : ((m.find? fun p => decide (p.1 = it.id)).isSome)
    · rw [if_pos hpres]
      exact ih _ _ (List.mem_append_left _ h)
    · rw [if_neg hpres]
      exact ih _ _ h

theorem buildStep_dups_of_key (x : SpecificationItemId) :
    ∀ (items : List SpecificationItem) (m : List (SpecificationItemId × SpecificationItem))
      (d : List SpecificationItemId), x ∈ m.map Prod.fst → x ∈ items.map (·.id) →
      x ∈ (items.foldl buildStep (m, d)).2 := by
  intro items
  induction items with
  | nil => intro m d _ h; simp at h
  | cons it rest ih =>
    intro m d hkey hmem
    rw [List.foldl_cons, show buildStep (m, d) it =
      (if (m.find? fun p => decide (p.1 = it.id)).isSome then (m, d ++ [it.id])
        else (m ++ [(it.id, it)], d)) from rfl]
    by_cases hx : it.id = x
    · have hpres : ((m.find? fun p => decide (p.1 = it.id)).isSome) := by
        obtain ⟨p, hp, hpe⟩ := List.mem_map.mp hkey
        exact List.find?_isSome.mpr ⟨p, hp, by simp [hpe, hx]⟩
      rw [if_pos hpres]
      exact buildStep_dups_mono x rest _ _ (by simp [hx])
    · have hrest : x ∈ rest.map (·.id) := by
        rcases (by simpa using hmem : x = it.id ∨ ∃ a ∈ rest, a.id = x) with h | ⟨a, ha, hax⟩
        · exact absurd h.symm hx
        · exact List.mem_map.mpr ⟨a, ha, hax⟩
      by_cases hpres : ((m.find? fun p => decide (p.1 = it.id)).isSome)
      · rw [if_pos hpres]
        exact ih _ _ hkey hrest
      · rw [if_neg hpres]
        refine ih _ _ ?_ hrest
        rw [List.map_append]
        exact List.mem_append_left _ hkey

theorem buildStep_dups_of_count (x : SpecificationItemId) :
    ∀ (items : List SpecificationItem) (m : List (SpecificationItemId × SpecificationItem))
      (d : List SpecificationItemId), 1 < (items.map (·.id)).count x →
      x ∈ (items.foldl buildStep (m, d)).2 := by
  intro items
  induction items with
  | nil => intro m d h; simp at h
  | cons it rest ih =>
    intro m d hcount
    rw [List.foldl_cons, show buildStep (m, d) it =
      (if (m.find? fun p => decide (p.1 = it.id)).isSome then (m, d ++ [it.id])
        else (m ++ [(it.id, it)], d)) from rfl]
    by_cases hx : it.id = x
    · have hrest : x ∈ rest.map (·.id) := by
        subst hx
        rw [List.map_cons, List.count_cons_self] at hcount
        exact List.count_pos_iff.mp (by omega)
      by_cases hpres : ((m.find? fun p => decide (p.1 = it.id)).isSome)
      · rw [if_pos hpres]
        exact buildStep_dups_mono x rest _ _ (by simp [hx])
      · rw [if_neg hpres]
        exact buildStep_dups_of_key x rest _ _ (by simp [List.map_append, hx]) hrest
    · have hcount' : 1 < (rest.map (·.id)).count x := by
        rw [List.map_cons, List.count_cons_of_ne (fun h => hx h.symm)] at hcount
        exact hcount
      by_cases hpres : ((m.find? fun p => decide (p.1 = it.id)).isSome)
      · rw [if_pos hpres]
        exact ih _ _ hcount'
      · rw [if_neg hpres]
        exact ih _ _ hcount'

/-- The id x occurring more than once in the input lands in `duplicate_ids`. -/
theorem buildItemsById_dups_of_count (items : List SpecificationItem)
    (x : SpecificationItemId) (h : 1 < (items.map (·.id)).count x) :
    x ∈ (buildItemsById items).2 :=
  buildStep_dups_of_count x items [] [] h

theorem determine_link_status_eq_spec (items : List SpecificationItem)
    (c : SpecificationItemId) :
    determine_link_status c (buildItemsById items).1 = linkStatusSpec items c := by
  unfold determine_link_status linkStatusSpec
  rw [show ((buildItemsById items).1.find? fun p => decide (p.1 = c)) =
      ((items.find? fun it => decide (it.id = c)).map fun it => (it.id, it)) by
    simpa using buildStep_find c items [] []]
  cases hf : items.find? fun it => decide (it.id = c) with
  | some it => rfl
  | none =>
    simp only [Option.map_none']
    have hnodup1 : ((buildItemsById items).1.map Prod.fst).Nodup :=
      buildStep_nodup items [] [] (by simp)
    have hperm : List.Perm ((buildItemsById items).1.map Prod.fst) (knownIds items) :=
      (List.perm_ext_iff_of_nodup hnodup1 (List.nodup_dedup _)).2 fun x =>
        Iff.trans (by simpa using buildStep_keys x items [] []) List.mem_dedup.symm
    have hpf := hperm.filter
      (fun id => decide (id.artifact_type = c.artifact_type ∧ id.name = c.name))
    cases h2 : (knownIds items).filter
        (fun id => decide (id.artifact_type = c.artifact_type ∧ id.name = c.name)) with
    | nil =>
      have h1 : ((buildItemsById items).1.map Prod.fst).filter
          (fun id => decide (id.artifact_type = c.artifact_type ∧ id.name = c.name)) = [] := by
        have hp := hpf
        rw [h2] at hp
        exact List.Perm.eq_nil hp
      rw [h1]
    | cons k ks =>
      cases ks with
      | nil =>
        have h1 : ((buildItemsById items).1.map Prod.fst).filter
            (fun id => decide (id.artifact_type = c.artifact_type ∧ id.name = c.name)) = [k] := by
          have hp := hpf
          rw [h2] at hp
          exact List.perm_singleton.mp hp
        rw [h1]
      | cons k2 ks2 =>
        have hlen := hpf.length_eq
        rw [h2] at hlen
        cases h1 : ((buildItemsById items).1.map Prod.fst).filter
            (fun id => decide (id.artifact_type = c.artifact_type ∧ id.name = c.name)) with
        | nil =>
          rw [h1] at hlen
          simp only [List.length_nil, List.length_cons] at hlen
          omega
        | cons a t =>
          cases t with
          | nil =>
            rw [h1] at hlen
            simp only [List.length_cons, List.length_nil] at hlen
            omega
          | cons b t2 => rfl

/-- C1: for every input item set, the outgoing link that `Linker::link_items`
creates for each `covers` entry `c` carries exactly the status of the claimed
decision rule (`linkStatusSpec`); the only other outgoing link is the
duplicate self-link, which precedes the `covers` links. -/
theorem C1_outgoing_link_status (items : List SpecificationItem)
    (out : List LinkedSpecificationItem) (hout : link_items items = Except.ok out)
    (li : LinkedSpecificationItem) (hli : li ∈ out) :
    ∃ pre, (pre = [] ∨
        pre = [{ source_id := some li.item.id, target_id := li.item.id,
                 status := LinkStatus.duplicate }]) ∧
      li.outgoing_links = pre ++ (li.item.covers.map fun c =>
        { source_id := some li.item.id, target_id := c,
          status := linkStatusSpec items c }) := by
  rw [link_items_eq items] at hout
  obtain rfl : items.map (linkedOf items) = out := Except.ok.inj hout
  obtain ⟨item, hmem, rfl⟩ := List.mem_map.mp hli
  refine ⟨dupPre items item, ?_, ?_⟩
  · unfold dupPre
    split
    · exact Or.inr rfl
    · exact Or.inl rfl
  · show outgoingOf items item = _
    unfold outgoingOf
    congr 1
    refine List.map_congr_left fun c _ => ?_
    rw [determine_link_status_eq_spec]
    rfl

/-- Witness for `C1_outgoing_link_status`: the two-item scenario of the unit
test `test_simple_linking` (a `feat` needing `req`, and a `req` covering it);
the `req` item's one outgoing link gets status `Covers`. -/
theorem C1_outgoing_link_status_witness :
    link_items
        [{ id := ⟨"feat", "login", 1⟩, needs := ["req"] },
         { id := ⟨"req", "login", 1⟩, covers := [⟨"feat", "login", 1⟩] }] =
      Except.ok (([{ id := ⟨"feat", "login", 1⟩, needs := ["req"] },
         { id := ⟨"req", "login", 1⟩, covers := [⟨"feat", "login", 1⟩] }].map
        (linkedOf [{ id := ⟨"feat", "login", 1⟩, needs := ["req"] },
         { id := ⟨"req", "login", 1⟩, covers := [⟨"feat", "login", 1⟩] }]))) ∧
    ∃ pre, (pre = [] ∨
        pre = [{ source_id := some (⟨"req", "login", 1⟩ : SpecificationItemId),
                 target_id := ⟨"req", "login", 1⟩, status := LinkStatus.duplicate }]) ∧
      (linkedOf [{ id := ⟨"feat", "login", 1⟩, needs := ["req"] },
         { id := ⟨"req", "login", 1⟩, covers := [⟨"feat", "login", 1⟩] }]
        { id := ⟨"req", "login", 1⟩, covers := [⟨"feat", "login", 1⟩] }).outgoing_links =
        pre ++ ([⟨"feat", "login", 1⟩].map fun c =>
          { source_id := some (⟨"req", "login", 1⟩ : SpecificationItemId), target_id := c,
            status := linkStatusSpec
              [{ id := ⟨"feat", "login", 1⟩, needs := ["req"] },
               { id := ⟨"req", "login", 1⟩, covers := [⟨"feat", "login", 1⟩] }] c }) :=
  ⟨link_items_eq _,
    C1_outgoing_link_status
      [{ id := ⟨"feat", "login", 1⟩, needs := ["req"] },
       { id := ⟨"req", "login", 1⟩, covers := [⟨"feat", "login", 1⟩] }]
      ([{ id := ⟨"feat", "login", 1⟩, needs := ["req"] },
        { id := ⟨"req", "login", 1⟩, covers := [⟨"feat", "login", 1⟩] }].map
        (linkedOf [{ id := ⟨"feat", "login", 1⟩, needs := ["req"] },
          { id := ⟨"req", "login", 1⟩, covers := [⟨"feat", "login", 1⟩] }]))
      (link_items_eq _)
      (linkedOf [{ id := ⟨"feat", "login", 1⟩, needs := ["req"] },
          { id := ⟨"req", "login", 1⟩, covers := [⟨"feat", "login", 1⟩] }]
        { id := ⟨"req", "login", 1⟩, covers := [⟨"feat", "login", 1⟩] })
      (List.mem_map_of_mem _ (by simp))⟩

theorem linkedOf_item (items : List SpecificationItem) (item : SpecificationItem) :
    (linkedOf items item).item = item := rfl

theorem linkedOf_cov (items : List SpecificationItem) (item : SpecificationItem) :
    (linkedOf items item).coverage_status = coverageOf items item := rfl

theorem covered_static_iff (items : List SpecificationItem)
    (id : SpecificationItemId) (t : String) :
    is_artifact_type_covered_static id t (itemsData items) = true ↔
      CoversSat (items.map (linkedOf items)) id t := by
  unfold is_artifact_type_covered_static CoversSat itemsData
  simp only [List.any_eq_true, List.mem_map, Bool.and_eq_true, decide_eq_true_eq, linkedOf]
  constructor
  · rintro ⟨p, ⟨item, hmem, rfl⟩, ⟨h1, h2⟩, l, hl, h3, h4⟩
    exact ⟨linkedOf items item, ⟨item, hmem, rfl⟩, h1, h2, l, hl, h3, h4⟩
  · rintro ⟨lj, ⟨item, hmem, rfl⟩, h1, h2, l, hl, h3, h4⟩
    exact ⟨(item, outgoingOf items item), ⟨item, hmem, rfl⟩, ⟨h1, h2⟩, l, hl, h3, h4⟩

/-- C2: coverage status of every output item of `Linker::link_items`: empty
`needs` → `Covered` regardless of links; otherwise `Covered` / `Partial` /
`Uncovered` according to whether all / some-but-not-all / none of the needed
artifact types are satisfied in the sense of `CoversSat`. -/
theorem C2_coverage_status (items : List SpecificationItem)
    (out : List LinkedSpecificationItem) (hout : link_items items = Except.ok out)
    (li : LinkedSpecificationItem) (hli : li ∈ out) :
    (li.item.needs = [] → li.coverage_status = CoverageStatus.covered) ∧
    ((∀ t ∈ li.item.needs, CoversSat out li.item.id t) →
      li.coverage_status = CoverageStatus.covered) ∧
    ((∃ t ∈ li.item.needs, CoversSat out li.item.id t) →
      (∃ t ∈ li.item.needs, ¬ CoversSat out li.item.id t) →
      li.coverage_status = CoverageStatus.partly) ∧
    (li.item.needs ≠ [] → (∀ t ∈ li.item.needs, ¬ CoversSat out li.item.id t) →
      li.coverage_status = CoverageStatus.uncovered) := by
  rw [link_items_eq items] at hout
  obtain rfl : items.map (linkedOf items) = out := Except.ok.inj hout
  obtain ⟨item, hmem, rfl⟩ := List.mem_map.mp hli
  have hsat : ∀ t, CoversSat (items.map (linkedOf items)) item.id t ↔
      is_artifact_type_covered_static item.id t (itemsData items) = true :=
    fun t => (covered_static_iff items item.id t).symm
  refine ⟨?_, ?_, ?_, ?_⟩
  · intro hn
    simp only [linkedOf_item] at hn
    rw [linkedOf_cov]
    unfold coverageOf
    rw [if_pos hn]
  · intro hall
    simp only [linkedOf_item] at hall
    rw [linkedOf_cov]
    unfold coverageOf
    by_cases hn : item.needs = []
    · rw [if_pos hn]
    · rw [if_neg hn, if_pos (List.all_eq_true.mpr fun t ht => (hsat t).mp (hall t ht))]
  · rintro ⟨t1, ht1, hs1⟩ ⟨t2, ht2, hs2⟩
    simp only [linkedOf_item] at ht1 ht2 hs1 hs2
    rw [linkedOf_cov]
    unfold coverageOf
    have hn : ¬ item.needs = [] := by
      intro h
      rw [h] at ht1
      exact absurd ht1 (List.not_mem_nil t1)
    rw [if_neg hn]
    rw [if_neg (fun hall => hs2 ((hsat t2).mpr (List.all_eq_true.mp hall t2 ht2)))]
    rw [if_pos (List.any_eq_true.mpr ⟨t1, ht1, (hsat t1).mp hs1⟩)]
  · intro hn hnone
    simp only [linkedOf_item] at hn hnone
    rw [linkedOf_cov]
    unfold coverageOf
    rw [if_neg hn]
    rw [if_neg (fun hall => by
      obtain ⟨t, ht⟩ := List.exists_mem_of_ne_nil _ hn
      exact hnone t ht ((hsat t).mpr (List.all_eq_true.mp hall t ht)))]
    rw [if_neg (fun hany => by
      obtain ⟨t, ht, hs⟩ := List.any_eq_true.mp hany
      exact hnone t ht ((hsat t).mpr hs))]

/-- Witness for `C2_coverage_status`: in the `test_simple_linking` scenario
the `feat` item (needing `req`, and covered by the `req` item with a `Covers`
link) is `Covered`. -/
theorem C2_coverage_status_witness :
    link_items
        [{ id := ⟨"feat", "login", 1⟩, needs := ["req"] },
         { id := ⟨"req", "login", 1⟩, covers := [⟨"feat", "login", 1⟩] }] =
      Except.ok ([{ id := ⟨"feat", "login", 1⟩, needs := ["req"] },
         { id := ⟨"req", "login", 1⟩, covers := [⟨"feat", "login", 1⟩] }].map
        (linkedOf [{ id := ⟨"feat", "login", 1⟩, needs := ["req"] },
         { id := ⟨"req", "login", 1⟩, covers := [⟨"feat", "login", 1⟩] }])) ∧
    ((linkedOf [{ id := ⟨"feat", "login", 1⟩, needs := ["req"] },
        { id := ⟨"req", "login", 1⟩, covers := [⟨"feat", "login", 1⟩] }]
        { id := ⟨"feat", "login", 1⟩, needs := ["req"] }).coverage_status =
      CoverageStatus.covered) := by
  refine ⟨link_items_eq _, ?_⟩
  refine (C2_coverage_status
    [{ id := ⟨"feat", "login", 1⟩, needs := ["req"] },
     { id := ⟨"req", "login", 1⟩, covers := [⟨"feat", "login", 1⟩] }]
    ([{ id := ⟨"feat", "login", 1⟩, needs := ["req"] },
      { id := ⟨"req", "login", 1⟩, covers := [⟨"feat", "login", 1⟩] }].map
      (linkedOf [{ id := ⟨"feat", "login", 1⟩, needs := ["req"] },
        { id := ⟨"req", "login", 1⟩, covers := [⟨"feat", "login", 1⟩] }]))
    (link_items_eq _)
    (linkedOf [{ id := ⟨"feat", "login", 1⟩, needs := ["req"] },
        { id := ⟨"req", "login", 1⟩, covers := [⟨"feat", "login", 1⟩] }]
      { id := ⟨"feat", "login", 1⟩, needs := ["req"] })
    (List.mem_map_of_mem _ (by simp))).2.1 ?_
  intro t ht
  have ht' : t = "req" := by simpa [linkedOf_item] using ht
  subst ht'
  refine ⟨linkedOf [{ id := ⟨"feat", "login", 1⟩, needs := ["req"] },
      { id := ⟨"req", "login", 1⟩, covers := [⟨"feat", "login", 1⟩] }]
      { id := ⟨"req", "login", 1⟩, covers := [⟨"feat", "login", 1⟩] },
    List.mem_map_of_mem _ (by simp), by decide, by decide, ?_⟩
  refine ⟨{ source_id := some (⟨"req", "login", 1⟩ : SpecificationItemId),
            target_id := ⟨"feat", "login", 1⟩, status := LinkStatus.covers }, ?_, rfl, rfl⟩
  decide

/-- The broken-link test matches exactly the five statuses of the claim. -/
theorem brokenLink_iff (l : Link) :
    brokenLink l = true ↔
      (l.status = LinkStatus.orphaned ∨ l.status = LinkStatus.ambiguous ∨
        l.status = LinkStatus.outdated ∨ l.status = LinkStatus.predated ∨
        l.status = LinkStatus.duplicate) := by
  cases hl : l.status <;> simp [brokenLink, hl]

/-- C3: the final `is_defect` flag equals "coverage status is not Covered, or
some outgoing link is Orphaned/Ambiguous/Outdated/Predated/Duplicate"; in
particular the flag set during duplicate detection survives (the duplicate
self-link keeps the right-hand side true). -/
theorem C3_defect_iff (items : List SpecificationItem)
    (out : List LinkedSpecificationItem) (hout : link_items items = Except.ok out)
    (li : LinkedSpecificationItem) (hli : li ∈ out) :
    li.is_defect = true ↔
      (¬ li.coverage_status = CoverageStatus.covered ∨
        ∃ l ∈ li.outgoing_links,
          (l.status = LinkStatus.orphaned ∨ l.status = LinkStatus.ambiguous ∨
            l.status = LinkStatus.outdated ∨ l.status = LinkStatus.predated ∨
            l.status = LinkStatus.duplicate)) := by
  rw [link_items_eq items] at hout
  obtain rfl : items.map (linkedOf items) = out := Except.ok.inj hout
  obtain ⟨item, hmem, rfl⟩ := List.mem_map.mp hli
  show defectOf items item = true ↔
    (¬ coverageOf items item = CoverageStatus.covered ∨
      ∃ l ∈ outgoingOf items item, _)
  unfold defectOf
  rw [Bool.or_eq_true, Bool.not_eq_true', decide_eq_false_iff_not, List.any_eq_true]
  constructor
  · rintro (h | ⟨l, hl, hb⟩)
    · exact Or.inl h
    · exact Or.inr ⟨l, hl, (brokenLink_iff l).mp hb⟩
  · rintro (h | ⟨l, hl, hb⟩)
    · exact Or.inl h
    · exact Or.inr ⟨l, hl, (brokenLink_iff l).mpr hb⟩

/-- Witness for `C3_defect_iff`: a single item needing `impl` with nothing
covering it is a defect. -/
theorem C3_defect_iff_witness :
    link_items [{ id := ⟨"req", "x", 1⟩, needs := ["impl"] }] =
      Except.ok ([{ id := ⟨"req", "x", 1⟩, needs := ["impl"] }].map
        (linkedOf [{ id := ⟨"req", "x", 1⟩, needs := ["impl"] }])) ∧
    ((linkedOf [{ id := ⟨"req", "x", 1⟩, needs := ["impl"] }]
        { id := ⟨"req", "x", 1⟩, needs := ["impl"] }).is_defect = true ↔
      (¬ (linkedOf [{ id := ⟨"req", "x", 1⟩, needs := ["impl"] }]
          { id := ⟨"req", "x", 1⟩, needs := ["impl"] }).coverage_status =
            CoverageStatus.covered ∨
        ∃ l ∈ (linkedOf [{ id := ⟨"req", "x", 1⟩, needs := ["impl"] }]
            { id := ⟨"req", "x", 1⟩, needs := ["impl"] }).outgoing_links,
          (l.status = LinkStatus.orphaned ∨ l.status = LinkStatus.ambiguous ∨
            l.status = LinkStatus.outdated ∨ l.status = LinkStatus.predated ∨
            l.status = LinkStatus.duplicate))) :=
  ⟨link_items_eq _,
    C3_defect_iff [{ id := ⟨"req", "x", 1⟩, needs := ["impl"] }]
      ([{ id := ⟨"req", "x", 1⟩, needs := ["impl"] }].map
        (linkedOf [{ id := ⟨"req", "x", 1⟩, needs := ["impl"] }]))
      (link_items_eq _)
      (linkedOf [{ id := ⟨"req", "x", 1⟩, needs := ["impl"] }]
        { id := ⟨"req", "x", 1⟩, needs := ["impl"] })
      (List.mem_map_of_mem _ (by simp))⟩

/-- C4: a duplicated identifier is not an error: `link_items` still returns
`Ok`, and every item bearing that identifier — the first occurrence
included — is a defect carrying a self-referential `Duplicate` link. -/
theorem C4_duplicate_handling (items : List SpecificationItem)
    (x : SpecificationItemId) (hcount : 1 < (items.map (·.id)).count x) :
    ∃ out, link_items items = Except.ok out ∧
      ∀ li ∈ out, li.item.id = x →
        li.is_defect = true ∧
        ({ source_id := some x, target_id := x, status := LinkStatus.duplicate } : Link) ∈
          li.outgoing_links := by
  refine ⟨items.map (linkedOf items), link_items_eq items, ?_⟩
  rintro li hli hid
  obtain ⟨item, hmem, rfl⟩ := List.mem_map.mp hli
  have hid' : item.id = x := hid
  have hdup : x ∈ (buildItemsById items).2 := buildItemsById_dups_of_count items x hcount
  have hpre : dupPre items item =
      [{ source_id := some x, target_id := x, status := LinkStatus.duplicate }] := by
    unfold dupPre
    rw [hid', if_pos hdup]
  have hmemlink :
      ({ source_id := some x, target_id := x, status := LinkStatus.duplicate } : Link) ∈
        outgoingOf items item := by
    unfold outgoingOf
    rw [hpre]
    exact List.mem_append_left _ (by simp)
  refine ⟨?_, hmemlink⟩
  show defectOf items item = true
  unfold defectOf
  rw [Bool.or_eq_true]
  exact Or.inr (List.any_eq_true.mpr ⟨_, hmemlink, by simp [brokenLink]⟩)

/-- Witness for `C4_duplicate_handling`: the spec's duplicate scenario, two
items both with identifier `req~x~1`. -/
theorem C4_duplicate_handling_witness :
    1 < (([{ id := ⟨"req", "x", 1⟩ },
      { id := ⟨"req", "x", 1⟩, needs := ["impl"] }] : List SpecificationItem).map
        (·.id)).count ⟨"req", "x", 1⟩ ∧
    ∃ out, link_items [{ id := ⟨"req", "x", 1⟩ },
        { id := ⟨"req", "x", 1⟩, needs := ["impl"] }] = Except.ok out ∧
      ∀ li ∈ out, li.item.id = ⟨"req", "x", 1⟩ →
        li.is_defect = true ∧
        ({ source_id := some ⟨"req", "x", 1⟩, target_id := ⟨"req", "x", 1⟩,
           status := LinkStatus.duplicate } : Link) ∈ li.outgoing_links :=
  ⟨by decide,
    C4_duplicate_handling
      [{ id := ⟨"req", "x", 1⟩ }, { id := ⟨"req", "x", 1⟩, needs := ["impl"] }]
      ⟨"req", "x", 1⟩ (by decide)⟩

/-- C7 (counterexample): with `req~x~1` duplicated (first occurrence needing
nothing, second needing `impl`) and `impl~b~1` covering `req~x~1`, the second
`req~x~1` occurrence is a defect with coverage `Uncovered` — `impl` is
unsatisfied under the coverage rule (the `impl` item's link has status
`Unwanted`, not `Covers`) — yet `find_missing_coverage_types` lists nothing,
because the `impl` item's incoming link exists regardless of link status, so
no "needs coverage by impl" clause is produced. -/
theorem C7_missing_types_counterexample :
    link_items
        [{ id := ⟨"req", "x", 1⟩ },
         { id := ⟨"req", "x", 1⟩, needs := ["impl"] },
         { id := ⟨"impl", "b", 1⟩, covers := [⟨"req", "x", 1⟩] }] =
      Except.ok ([{ id := ⟨"req", "x", 1⟩ },
         { id := ⟨"req", "x", 1⟩, needs := ["impl"] },
         { id := ⟨"impl", "b", 1⟩, covers := [⟨"req", "x", 1⟩] }].map
        (linkedOf [{ id := ⟨"req", "x", 1⟩ },
         { id := ⟨"req", "x", 1⟩, needs := ["impl"] },
         { id := ⟨"impl", "b", 1⟩, covers := [⟨"req", "x", 1⟩] }])) ∧
    (linkedOf [{ id := ⟨"req", "x", 1⟩ },
         { id := ⟨"req", "x", 1⟩, needs := ["impl"] },
         { id := ⟨"impl", "b", 1⟩, covers := [⟨"req", "x", 1⟩] }]
        { id := ⟨"req", "x", 1⟩, needs := ["impl"] }).is_defect = true ∧
    ¬ (linkedOf [{ id := ⟨"req", "x", 1⟩ },
         { id := ⟨"req", "x", 1⟩, needs := ["impl"] },
         { id := ⟨"impl", "b", 1⟩, covers := [⟨"req", "x", 1⟩] }]
        { id := ⟨"req", "x", 1⟩, needs := ["impl"] }).coverage_status =
      CoverageStatus.covered ∧
    find_missing_coverage_types
      (linkedOf [{ id := ⟨"req", "x", 1⟩ },
         { id := ⟨"req", "x", 1⟩, needs := ["impl"] },
         { id := ⟨"impl", "b", 1⟩, covers := [⟨"req", "x", 1⟩] }]
        { id := ⟨"req", "x", 1⟩, needs := ["impl"] }) = [] ∧
    unsatisfiedTypes
      [{ id := ⟨"req", "x", 1⟩ },
       { id := ⟨"req", "x", 1⟩, needs := ["impl"] },
       { id := ⟨"impl", "b", 1⟩, covers := [⟨"req", "x", 1⟩] }]
      { id := ⟨"req", "x", 1⟩, needs := ["impl"] } = ["impl"] :=
  ⟨link_items_eq _, by decide, by decide, by decide, by decide⟩

/-- C7 (amended): the artifact types in the "needs coverage by …" clause are
exactly the needed types `t` such that no input item of artifact type `t`
lists this item's identifier among its `covers` (i.e. no incoming link from
an item of that type, irrespective of any link status), in declaration
order. -/
theorem C7_missing_types (items : List SpecificationItem)
    (out : List LinkedSpecificationItem) (hout : link_items items = Except.ok out)
    (li : LinkedSpecificationItem) (hli : li ∈ out) :
    find_missing_coverage_types li =
      li.item.needs.filter fun t =>
        decide (¬ ∃ other ∈ items, other.id.artifact_type = t ∧ li.item.id ∈ other.covers) := by
  rw [link_items_eq items] at hout
  obtain rfl : items.map (linkedOf items) = out := Except.ok.inj hout
  obtain ⟨item, hmem, rfl⟩ := List.mem_map.mp hli
  show (item.needs.filter _) = (item.needs.filter _)
  refine List.filter_congr fun t _ => ?_
  have hiff :
      ((incomingOf items item).any fun link =>
        match link.source_id with
        | some source_id => decide (source_id.artifact_type = t)
        | none => false) = true ↔
      (∃ other ∈ items, other.id.artifact_type = t ∧ item.id ∈ other.covers) := by
    rw [List.any_eq_true]
    unfold incomingOf
    constructor
    · rintro ⟨l, hl, hsrc⟩
      obtain ⟨other, hother, rfl⟩ := List.mem_map.mp hl
      obtain ⟨ho1, ho2⟩ := List.mem_filter.mp hother
      exact ⟨other, ho1, by simpa using hsrc, by simpa using ho2⟩
    · rintro ⟨other, hother, htype, hcov⟩
      refine ⟨{ source_id := some other.id, target_id := item.id,
                status := LinkStatus.coveredShallow }, ?_, by simpa using htype⟩
      exact List.mem_map_of_mem _ (List.mem_filter.mpr ⟨hother, by simpa using hcov⟩)
  show (!((incomingOf items item).any _)) = _
  cases hb : ((incomingOf items item).any fun link =>
      match link.source_id with
      | some source_id => decide (source_id.artifact_type = t)
      | none => false) with
  | true =>
    have hex := hiff.mp hb
    simp [linkedOf_item, hex]
  | false =>
    have hex : ¬ (∃ other ∈ items, other.id.artifact_type = t ∧ item.id ∈ other.covers) :=
      fun h => by rw [hiff.mpr h] at hb; cases hb
    simp only [linkedOf_item]
    simp [hex]

/-- Witness for `C7_missing_types`: a lone `req~x~1` needing `impl` with
nothing covering it lists `impl` as missing, and (the claim's example) its
defect description is exactly "Item req~x~1 needs coverage by impl". -/
theorem C7_missing_types_witness :
    link_items [{ id := ⟨"req", "x", 1⟩, needs := ["impl"] }] =
      Except.ok ([{ id := ⟨"req", "x", 1⟩, needs := ["impl"] }].map
        (linkedOf [{ id := ⟨"req", "x", 1⟩, needs := ["impl"] }])) ∧
    find_missing_coverage_types
        (linkedOf [{ id := ⟨"req", "x", 1⟩, needs := ["impl"] }]
          { id := ⟨"req", "x", 1⟩, needs := ["impl"] }) =
      ((linkedOf [{ id := ⟨"req", "x", 1⟩, needs := ["impl"] }]
          { id := ⟨"req", "x", 1⟩, needs := ["impl"] }).item.needs.filter fun t =>
        decide (¬ ∃ other ∈ ([{ id := ⟨"req", "x", 1⟩, needs := ["impl"] }] :
            List SpecificationItem),
          other.id.artifact_type = t ∧
          (linkedOf [{ id := ⟨"req", "x", 1⟩, needs := ["impl"] }]
            { id := ⟨"req", "x", 1⟩, needs := ["impl"] }).item.id ∈ other.covers)) ∧
    generate_detailed_defect_description
        (linkedOf [{ id := ⟨"req", "x", 1⟩, needs := ["impl"] }]
          { id := ⟨"req", "x", 1⟩, needs := ["impl"] }) =
      "Item req~x~1 needs coverage by impl" :=
  ⟨link_items_eq _,
    C7_missing_types [{ id := ⟨"req", "x", 1⟩, needs := ["impl"] }]
      ([{ id := ⟨"req", "x", 1⟩, needs := ["impl"] }].map
        (linkedOf [{ id := ⟨"req", "x", 1⟩, needs := ["impl"] }]))
      (link_items_eq _)
      (linkedOf [{ id := ⟨"req", "x", 1⟩, needs := ["impl"] }]
        { id := ⟨"req", "x", 1⟩, needs := ["impl"] })
      (List.mem_map_of_mem _ (by simp)),
    by decide⟩

/-- C6 (counterexample): an item with a `Duplicate` self-link followed by an
`Orphaned` link — `req~x~1` duplicated and covering the non-existing
`dsn~ghost~1` — is described with the duplicate message *first* (link
order), not with the orphaned message first as the claim orders them. -/
theorem C6_description_counterexample :
    link_items
        [{ id := ⟨"req", "x", 1⟩, covers := [⟨"dsn", "ghost", 1⟩] },
         { id := ⟨"req", "x", 1⟩ }] =
      Except.ok ([{ id := ⟨"req", "x", 1⟩, covers := [⟨"dsn", "ghost", 1⟩] },
         { id := ⟨"req", "x", 1⟩ }].map
        (linkedOf [{ id := ⟨"req", "x", 1⟩, covers := [⟨"dsn", "ghost", 1⟩] },
         { id := ⟨"req", "x", 1⟩ }])) ∧
    (linkedOf [{ id := ⟨"req", "x", 1⟩, covers := [⟨"dsn", "ghost", 1⟩] },
         { id := ⟨"req", "x", 1⟩ }]
        { id := ⟨"req", "x", 1⟩, covers := [⟨"dsn", "ghost", 1⟩] }).is_defect = true ∧
    generate_detailed_defect_description
        (linkedOf [{ id := ⟨"req", "x", 1⟩, covers := [⟨"dsn", "ghost", 1⟩] },
           { id := ⟨"req", "x", 1⟩ }]
          { id := ⟨"req", "x", 1⟩, covers := [⟨"dsn", "ghost", 1⟩] }) =
      "Item req~x~1 has multiple issues: has duplicate ID req~x~1; covers non-existing item dsn~ghost~1" ∧
    descriptionSpecC6
        (linkedOf [{ id := ⟨"req", "x", 1⟩, covers := [⟨"dsn", "ghost", 1⟩] },
           { id := ⟨"req", "x", 1⟩ }]
          { id := ⟨"req", "x", 1⟩, covers := [⟨"dsn", "ghost", 1⟩] }) =
      "Item req~x~1 has multiple issues: covers non-existing item dsn~ghost~1; has duplicate ID req~x~1" ∧
    ¬ generate_detailed_defect_description
        (linkedOf [{ id := ⟨"req", "x", 1⟩, covers := [⟨"dsn", "ghost", 1⟩] },
           { id := ⟨"req", "x", 1⟩ }]
          { id := ⟨"req", "x", 1⟩, covers := [⟨"dsn", "ghost", 1⟩] }) =
      descriptionSpecC6
        (linkedOf [{ id := ⟨"req", "x", 1⟩, covers := [⟨"dsn", "ghost", 1⟩] },
           { id := ⟨"req", "x", 1⟩ }]
          { id := ⟨"req", "x", 1⟩, covers := [⟨"dsn", "ghost", 1⟩] }) :=
  ⟨link_items_eq _, by decide, by decide, by decide, by decide⟩

/-- C6 (amended): for every linked item, the defect description concatenates
one message per offending outgoing link *in link order* (so the `Duplicate`
self-link added during duplicate detection, which precedes the `covers`
links, is reported first), then the single "needs coverage by …" clause
(present only when the coverage status is not `Covered` and the missing list
is non-empty), framed as "Item <id> <issue>" / "Item <id> has multiple
issues: …" / the "has unspecified defects" fallback. -/
theorem C6_description_order (li : LinkedSpecificationItem) :
    generate_detailed_defect_description li =
      formatItemIssues li.item.id
        ((li.outgoing_links.filterMap fun l =>
            statusIssueMsg li.item.id l.target_id l.status) ++
          (if li.coverage_status = CoverageStatus.covered then []
           else if find_missing_coverage_types li = [] then []
           else ["needs coverage by " ++
              String.intercalate ", " (find_missing_coverage_types li)])) := by
  unfold generate_detailed_defect_description formatItemIssues
  have hmsg : li.outgoing_links.filterMap (linkIssueMsg li.item.id) =
      li.outgoing_links.filterMap fun l =>
        statusIssueMsg li.item.id l.target_id l.status := by
    induction li.outgoing_links with
    | nil => rfl
    | cons l ls ih =>
      rcases l with ⟨src, tgt, st⟩
      rw [List.filterMap_cons, List.filterMap_cons, ih]
      cases st <;> rfl
  rw [hmsg]
  by_cases hcov : li.coverage_status = CoverageStatus.covered
  · simp only [if_pos hcov, List.append_nil]
  · by_cases hmiss : find_missing_coverage_types li = []
    · simp only [if_neg hcov, if_pos hmiss, List.append_nil]
    · simp only [if_neg hcov, if_neg hmiss]

/-- C8 (counterexample): two divergences from the claim at concrete inputs.
With a heading before the declaration *and* the declaration inside a heading
(`["# Title A", "# req~x~1 Title B"]`, declaration on line 1), the code
titles the item "Title B" (the declaration-line heading overwrites), while
the claim's rule gives "Title A".  And with text *before* the identifier
(`["# Intro req~x~1"]`), the code keeps only the text after the identifier —
nothing — and falls back to "req~x~1", while the claim's
"identifier substring removed" gives "Intro". -/
theorem C8_title_counterexample :
    resolveTitle ["# Title A", "# req~x~1 Title B"] 1 "req" "x" 1 = some "Title B" ∧
    titleSpecC8 ["# Title A", "# req~x~1 Title B"] 1 "req" "x" 1 = some "Title A" ∧
    ¬ resolveTitle ["# Title A", "# req~x~1 Title B"] 1 "req" "x" 1 =
      titleSpecC8 ["# Title A", "# req~x~1 Title B"] 1 "req" "x" 1 ∧
    resolveTitle ["# Intro req~x~1"] 0 "req" "x" 1 = some "req~x~1" ∧
    titleSpecC8 ["# Intro req~x~1"] 0 "req" "x" 1 = some "Intro" := by
  refine ⟨by decide, by decide, by decide, by decide, by decide⟩

/-- C8 (amended): the declaration-line heading takes precedence over the
previous-line heading, and the title it yields is the heading text *after*
the first occurrence of the identifier, trimmed — text before the identifier
is dropped — falling back to the bare identifier when nothing remains (or
the whole heading text when the identifier does not occur); only otherwise
does a previous-line heading give its text as the title. -/
theorem C8_title_resolution (lines : List String) (line_number : Nat)
    (artifact_type nm : String) (revision : Nat) :
    resolveTitle lines line_number artifact_type nm revision =
      (if is_heading (lines.getD line_number "") then
        (let heading_text := extract_heading_text (lines.getD line_number "")
         let idStr := artifact_type ++ "~" ++ nm ++ "~" ++ u32Display revision
         match findSubstrIdx idStr.data heading_text.data with
         | some pos =>
           let title_part := trimChars (heading_text.data.drop (pos + idStr.data.length))
           if title_part = [] then some idStr else some (String.mk title_part)
         | none => some heading_text)
      else if 0 < line_number ∧ is_heading (lines.getD (line_number - 1) "") then
        some (extract_heading_text (lines.getD (line_number - 1) ""))
      else none) := by
  unfold resolveTitle
  by_cases hcur : is_heading (lines.getD line_number "") = true
  · simp only [hcur, if_true]
  · simp only [hcur, if_false, Bool.false_eq_true]

/-- C9: when the scan root does not exist, both importers return `Ok` with an
empty item list and emit the diagnostic, regardless of what a walk would have
found. -/
theorem C9_missing_root (file_results : List (Except Error (List SpecificationItem))) :
    TagImporter.import_from_directory false file_results = (Except.ok [], true) ∧
    MarkdownImporter.import_from_directory false file_results = (Except.ok [], true) :=
  ⟨rfl, rfl⟩

end OVFT

